import Mathlib

/-!
Verification of `simple-pixel-sprite-generator.py`.

The repository has two core operations:
  * `pixelate_image` (lines 20-36): downsample with a bilinear filter, upsample
    back with nearest-neighbour, optionally apply `ImageOps.autocontrast`.
  * `generate_spritemap` (lines 88-136): pack a list of images into a square-ish
    grid atlas.

The embedding below translates the repository code into Lean.  Decoded images
are rectangular buffers of RGBA pixels.  The PIL library calls
(`Image.resize` with `BILINEAR` / `NEAREST`, `ImageOps.autocontrast`) are
external library code not present in the repository; those are modelled from
the spec, as marked on each definition.  Python integer arithmetic is modelled
over `Int` with floor division (`Int.fdiv`), and Python's `ZeroDivisionError`
by an `Except` result.
-/

set_option autoImplicit false

namespace SpriteGen

/-- An RGBA pixel: one sample per channel, `a` is the alpha channel. -/
structure Pixel where
  r : Nat
  g : Nat
  b : Nat
  a : Nat
deriving DecidableEq, Repr

/-- A decoded image: a rectangular pixel buffer.  `px x y` is the pixel in
column `x`, row `y`; values outside the rectangle are irrelevant junk. -/
structure Image where
  width : Nat
  height : Nat
  px : Nat → Nat → Pixel

/-- The Python exceptions the modelled code can raise. -/
inductive PyError where
  | zeroDivisionError
deriving DecidableEq, Repr

/-- Python's floor division `a // b` on integers: raises `ZeroDivisionError`
for `b = 0`, otherwise rounds toward negative infinity (`Int.fdiv`). -/
def pyFloorDiv (a b : Int) : Except PyError Int :=
  if b = 0 then .error .zeroDivisionError else .ok (Int.fdiv a b)

/-- All samples of one channel of an image, in row-major order. -/
def channelValues (img : Image) (c : Pixel → Nat) : List Nat :=
  ((List.range img.height).map
    (fun y => (List.range img.width).map (fun x => c (img.px x y)))).flatten

/-- Minimum of a list, 0 for the empty list. -/
def listMin : List Nat → Nat
  | [] => 0
  | h :: t => t.foldl min h

/-- Maximum of a list, 0 for the empty list. -/
def listMax : List Nat → Nat
  | [] => 0
  | h :: t => t.foldl max h

/-- The pixels of the source rectangle `[x0, x1) × [y0, y1)`, row-major. -/
def boxPixels (img : Image) (x0 x1 y0 y1 : Nat) : List Pixel :=
  ((List.range (y1 - y0)).map
    (fun dy => (List.range (x1 - x0)).map (fun dx => img.px (x0 + dx) (y0 + dy)))).flatten

/-- Average of one channel over a list of pixels (0 for the empty list). -/
def avgChannel (ps : List Pixel) (c : Pixel → Nat) : Nat :=
  (ps.map c).sum / ps.length

/-- Channel-wise average colour of a source rectangle. -/
def avgBox (img : Image) (x0 x1 y0 y1 : Nat) : Pixel :=
  let ps := boxPixels img x0 x1 y0 y1
  { r := avgChannel ps Pixel.r, g := avgChannel ps Pixel.g,
    b := avgChannel ps Pixel.b, a := avgChannel ps Pixel.a }

/-- Left edge of the source interval that output coordinate `x` covers when
resizing an axis of `src` samples to `dst` samples. -/
def boxLo (x src dst : Nat) : Nat := x * src / dst

/-- Right edge (exclusive, rounded up) of the source interval that output
coordinate `x` covers when resizing an axis of `src` samples to `dst`. -/
def boxHi (x src dst : Nat) : Nat := ((x + 1) * src + dst - 1) / dst

/-- Modelled from the spec: PIL `Image.resize((w, h), resample=Image.BILINEAR)`
used for downsampling — an area/linear-averaging filter in which each output
pixel blends the source region it covers (spec 4.1 step 2).  Each output pixel
is the channel-wise average of its covering source rectangle. -/
def resizeBilinear (img : Image) (w h : Nat) : Image :=
  { width := w, height := h,
    px := fun x y =>
      avgBox img (boxLo x img.width w) (boxHi x img.width w)
        (boxLo y img.height h) (boxHi y img.height h) }

/-- Modelled from the spec: PIL `Image.resize(size, Image.NEAREST)` — each
output pixel copies the value of the nearest source-grid pixel (spec 4.1
step 3): output `x` samples the source at the centre point
`(x + 1/2) * src / dst`, i.e. `(2*x + 1) * src / (2 * dst)` rounded down. -/
def resizeNearest (img : Image) (w h : Nat) : Image :=
  { width := w, height := h,
    px := fun x y =>
      img.px ((2 * x + 1) * img.width / (2 * w))
        ((2 * y + 1) * img.height / (2 * h)) }

/-- Linear rescale of a channel sample from the range `[lo, hi]` to the full
displayable range `[0, 255]`; a channel with zero dynamic range is unchanged. -/
def stretchValue (lo hi v : Nat) : Nat :=
  if hi ≤ lo then v else (v - lo) * 255 / (hi - lo)

/-- Modelled from the spec: PIL `ImageOps.autocontrast` — for each colour
channel independently, find the minimum and maximum sample present and
linearly rescale that channel to the full `0..255` range, leaving a channel
with zero dynamic range unchanged; the alpha channel is excluded from the
stretch and preserved unchanged (spec 4.1 step 4). -/
def autocontrast (img : Image) : Image :=
  let loR := listMin (channelValues img Pixel.r)
  let hiR := listMax (channelValues img Pixel.r)
  let loG := listMin (channelValues img Pixel.g)
  let hiG := listMax (channelValues img Pixel.g)
  let loB := listMin (channelValues img Pixel.b)
  let hiB := listMax (channelValues img Pixel.b)
  { width := img.width, height := img.height,
    px := fun x y =>
      let p := img.px x y
      { r := stretchValue loR hiR p.r, g := stretchValue loG hiG p.g,
        b := stretchValue loB hiB p.b, a := p.a } }

/-- Line 28 of the source: `new_width = max(1, image.width // pixel_size)`
(Python floor division; the `pixel_size = 0` error case is handled in
`pixelate_image`). -/
def new_width (image : Image) (pixel_size : Int) : Nat :=
  (max 1 (Int.fdiv image.width pixel_size)).toNat

/-- Line 29 of the source: `new_height = max(1, image.height // pixel_size)`. -/
def new_height (image : Image) (pixel_size : Int) : Nat :=
  (max 1 (Int.fdiv image.height pixel_size)).toNat

/-- Line 30 of the source: `small_image = image.resize((new_width, new_height),
resample=Image.BILINEAR)` — the intermediate downsampled image. -/
def small_image (image : Image) (pixel_size : Int) : Image :=
  resizeBilinear image (new_width image pixel_size) (new_height image pixel_size)

/-- Line 31 of the source: `pixelated_image = small_image.resize(image.size,
Image.NEAREST)`. -/
def pixelated_image (image : Image) (pixel_size : Int) : Image :=
  resizeNearest (small_image image pixel_size) image.width image.height

/-- Lines 20-36 of the source, `pixelate_image(image, pixel_size, auto_adjust)`.
The function performs no validation of `pixel_size`: the only failure is the
`ZeroDivisionError` Python raises at `image.width // pixel_size` when
`pixel_size = 0` (both floor divisions raise exactly then, so the check is
hoisted). -/
def pixelate_image (image : Image) (pixel_size : Int) (auto_adjust : Bool) :
    Except PyError Image :=
  if pixel_size = 0 then .error .zeroDivisionError
  else .ok (if auto_adjust then autocontrast (pixelated_image image pixel_size)
            else pixelated_image image pixel_size)

/-! ### Atlas packer (`generate_spritemap`, lines 88-136)

The function's I/O part (opening each path, skipping unreadable files) is
external; the embedding takes the list of successfully decoded images and
models lines 120-132.  `math.ceil(math.sqrt(count))` and
`math.ceil(count / cols)` use exact real arithmetic below (`ceilSqrt`,
`ceilDiv`); the Python floats are exact at every realistic image count. -/

/-- Linear search for the least `c` at or above the starting point with
`n ≤ c * c`, bounded by the fuel (first argument of the recursion). -/
def sqrtSearch (n : Nat) : Nat → Nat → Nat
  | 0, c => c
  | fuel + 1, c => if n ≤ c * c then c else sqrtSearch n fuel (c + 1)

/-- `math.ceil(math.sqrt(n))`: the ceiling of the real square root of `n`,
i.e. the least `c` with `n ≤ c * c` (fuel `n` suffices since `n ≤ n * n`). -/
def ceilSqrt (n : Nat) : Nat := sqrtSearch n n 0

/-- `math.ceil(n / d)` for naturals: ceiling division. -/
def ceilDiv (n d : Nat) : Nat := (n + d - 1) / d

/-- Line 120 of the source: `cell_width = max(widths)`. -/
def cell_width (images : List Image) : Nat := listMax (images.map Image.width)

/-- Line 121 of the source: `cell_height = max(heights)`. -/
def cell_height (images : List Image) : Nat := listMax (images.map Image.height)

/-- Line 123 of the source: `cols = math.ceil(math.sqrt(count))` with
`count = len(images)`. -/
def cols (images : List Image) : Nat := ceilSqrt images.length

/-- Line 124 of the source: `rows = math.ceil(count / cols)`. -/
def rows (images : List Image) : Nat := ceilDiv images.length (cols images)

/-- Line 130 of the source: `x = (idx % cols) * cell_width +
(cell_width - img.width) // 2`.  Inside `generate_spritemap` every image's
width is at most `cell_width` (the maximum), so the natural-number
subtraction agrees with Python's integer subtraction. -/
def paste_x (images : List Image) (idx : Nat) (img : Image) : Nat :=
  (idx % cols images) * cell_width images + (cell_width images - img.width) / 2

/-- Line 131 of the source: `y = (idx // cols) * cell_height +
(cell_height - img.height) // 2`. -/
def paste_y (images : List Image) (idx : Nat) (img : Image) : Nat :=
  (idx / cols images) * cell_height images + (cell_height images - img.height) / 2

/-- Line 127 of the source: `Image.new('RGBA', (w, h), (0, 0, 0, 0))` — a
fully transparent canvas. -/
def blankCanvas (w h : Nat) : Image :=
  { width := w, height := h, px := fun _ _ => ⟨0, 0, 0, 0⟩ }

/-- Line 132 of the source: `spritemap.paste(img, (x, y))` — overwrite the
rectangle `[x, x+img.width) × [y, y+img.height)` of the canvas with `img`. -/
def paste (canvas img : Image) (x y : Nat) : Image :=
  { canvas with
    px := fun i j =>
      if x ≤ i ∧ i < x + img.width ∧ y ≤ j ∧ j < y + img.height then
        img.px (i - x) (j - y)
      else canvas.px i j }

/-- Lines 95-132 of the source, `generate_spritemap` on the decoded images:
returns `none` (a no-op, no canvas) for the empty list, otherwise folds
`paste` over `enumerate(images)` starting from the transparent canvas of
`cols*cell_width × rows*cell_height`. -/
def generate_spritemap (images : List Image) : Option Image :=
  if images.isEmpty then none
  else
    some (images.enum.foldl
      (fun spritemap p =>
        paste spritemap p.2 (paste_x images p.1 p.2) (paste_y images p.1 p.2))
      (blankCanvas (cols images * cell_width images)
        (rows images * cell_height images)))

/-! ### Concrete test images -/

/-- A deterministic pixel pattern used by the concrete instances below. -/
def testPattern : Nat → Nat → Pixel :=
  fun x y =>
    ⟨(x * 37 + y * 91) % 256, (x * 11 + y * 3) % 256, (x * 5 + y * 7) % 256,
      (200 + x + y) % 256⟩

/-- A concrete 2×2 test image. -/
def testImage2 : Image := ⟨2, 2, testPattern⟩

/-- A concrete 3×2 test image. -/
def testImage3 : Image := ⟨3, 2, testPattern⟩

/-- A concrete 100×100 test image. -/
def testImage100 : Image := ⟨100, 100, testPattern⟩

/-- The four images of sizes 10×10, 8×8, 10×6 and 8×10 from the spec's atlas
example. -/
def exampleImages : List Image :=
  [⟨10, 10, testPattern⟩, ⟨8, 8, testPattern⟩, ⟨10, 6, testPattern⟩, ⟨8, 10, testPattern⟩]

/-! ### Arithmetic facts about the grid shape -/

theorem sqrtSearch_le_sq (n : Nat) :
    ∀ fuel c, n ≤ (c + fuel) * (c + fuel) → n ≤ sqrtSearch n fuel c * sqrtSearch n fuel c
  | 0, c, h => by simpa [sqrtSearch] using h
  | fuel + 1, c, h => by
    by_cases hc : n ≤ c * c
    · simp [sqrtSearch, hc]
    · have h2 : n ≤ (c + 1 + fuel) * (c + 1 + fuel) := by
        have he : c + 1 + fuel = c + (fuel + 1) := by omega
        rw [he]; exact h
      simp only [sqrtSearch, if_neg hc]
      exact sqrtSearch_le_sq n fuel (c + 1) h2

theorem sqrtSearch_min (n : Nat) :
    ∀ fuel c, (∀ d, d < c → ¬ n ≤ d * d) → ∀ d, n ≤ d * d → sqrtSearch n fuel c ≤ d
  | 0, c, hlow, d, hd => by
    simp only [sqrtSearch]
    by_contra hcd
    exact hlow d (by omega) hd
  | fuel + 1, c, hlow, d, hd => by
    by_cases hc : n ≤ c * c
    · simp only [sqrtSearch, if_pos hc]
      by_contra hcd
      exact hlow d (by omega) hd
    · simp only [sqrtSearch, if_neg hc]
      refine sqrtSearch_min n fuel (c + 1) ?_ d hd
      intro e he
      rcases Nat.lt_or_ge e c with h1 | h1
      · exact hlow e h1
      · have he2 : e = c := by omega
        subst he2; exact hc

theorem le_ceilSqrt_sq (n : Nat) : n ≤ ceilSqrt n * ceilSqrt n := by
  have h : n ≤ (0 + n) * (0 + n) := by nlinarith
  exact sqrtSearch_le_sq n n 0 h

theorem ceilSqrt_le_of_le_sq {n c : Nat} (h : n ≤ c * c) : ceilSqrt n ≤ c :=
  sqrtSearch_min n n 0 (fun d hd => absurd hd (Nat.not_lt_zero d)) c h

theorem ceilSqrt_pos {n : Nat} (h : 1 ≤ n) : 1 ≤ ceilSqrt n := by
  by_contra h0
  have h1 : ceilSqrt n = 0 := by omega
  have h2 := le_ceilSqrt_sq n
  rw [h1] at h2
  simp at h2
  omega

theorem le_mul_ceilDiv (n d : Nat) (hd : 0 < d) : n ≤ d * ceilDiv n d := by
  rcases Nat.eq_zero_or_pos n with h0 | h1
  · subst h0; exact Nat.zero_le _
  · unfold ceilDiv
    have hrw : n + d - 1 = (n - 1) + d := by omega
    rw [hrw, Nat.add_div_right _ hd, Nat.mul_add, Nat.mul_one]
    have h3 := Nat.div_add_mod (n - 1) d
    have h4 : (n - 1) % d < d := Nat.mod_lt _ hd
    omega

theorem ceilDiv_le (n d r : Nat) (hd : 0 < d) (h : n ≤ d * r) : ceilDiv n d ≤ r := by
  unfold ceilDiv
  have h1 := Nat.div_add_mod (n + d - 1) d
  have h2 : (n + d - 1) % d < d := Nat.mod_lt _ hd
  by_contra hc
  push_neg at hc
  have h3 : d * (r + 1) ≤ d * ((n + d - 1) / d) := Nat.mul_le_mul_left d hc
  rw [Nat.mul_add, Nat.mul_one] at h3
  omega

/-! ### Facts about `listMax` and the paste fold -/

theorem foldl_max_props : ∀ (l : List Nat) (b : Nat),
    b ≤ l.foldl max b ∧ ∀ a, a ∈ l → a ≤ l.foldl max b
  | [], b => ⟨le_rfl, by simp⟩
  | h :: t, b => by
    obtain ⟨ih1, ih2⟩ := foldl_max_props t (max b h)
    refine ⟨le_trans (le_max_left b h) ih1, ?_⟩
    intro a ha
    rcases List.mem_cons.mp ha with rfl | ha2
    · exact le_trans (le_max_right b a) ih1
    · exact ih2 a ha2

theorem le_listMax (l : List Nat) (a : Nat) (ha : a ∈ l) : a ≤ listMax l := by
  cases l with
  | nil => cases ha
  | cons h t =>
    unfold listMax
    rcases List.mem_cons.mp ha with rfl | ha2
    · exact (foldl_max_props t a).1
    · exact (foldl_max_props t h).2 a ha2

/-- Each image's width in a list is bounded by `cell_width` of the list. -/
theorem width_le_cell_width (images : List Image) (img : Image) (h : img ∈ images) :
    img.width ≤ cell_width images :=
  le_listMax _ _ (List.mem_map_of_mem Image.width h)

/-- Each image's height in a list is bounded by `cell_height` of the list. -/
theorem height_le_cell_height (images : List Image) (img : Image) (h : img ∈ images) :
    img.height ≤ cell_height images :=
  le_listMax _ _ (List.mem_map_of_mem Image.height h)

/-- The paste fold of `generate_spritemap` never changes the canvas size. -/
theorem spritemap_foldl_size (images : List Image) :
    ∀ (l : List (Nat × Image)) (c : Image),
      (l.foldl (fun s p => paste s p.2 (paste_x images p.1 p.2) (paste_y images p.1 p.2)) c).width
        = c.width ∧
      (l.foldl (fun s p => paste s p.2 (paste_x images p.1 p.2) (paste_y images p.1 p.2)) c).height
        = c.height
  | [], _ => ⟨rfl, rfl⟩
  | p :: t, c =>
    spritemap_foldl_size images t
      (paste c p.2 (paste_x images p.1 p.2) (paste_y images p.1 p.2))

/-! ### Facts about the pixelator -/

theorem nearest_index (w x : Nat) (hw : 0 < w) : (2 * x + 1) * w / (2 * w) = x := by
  have h1 : (2 * x + 1) * w = (2 * w) * x + w := by ring
  rw [h1, Nat.mul_add_div (by omega)]
  have h2 : w / (2 * w) = 0 := Nat.div_eq_of_lt (by omega)
  omega

theorem boxLo_self (x w : Nat) (hw : 0 < w) : boxLo x w w = x := by
  unfold boxLo
  exact Nat.mul_div_cancel x hw

theorem boxHi_self (x w : Nat) (hw : 0 < w) : boxHi x w w = x + 1 := by
  unfold boxHi
  have hc : (x + 1) * w = w * (x + 1) := Nat.mul_comm _ _
  have h1 : (x + 1) * w + w - 1 = w * (x + 1) + (w - 1) := by omega
  rw [h1, Nat.mul_add_div hw]
  have h2 : (w - 1) / w = 0 := Nat.div_eq_of_lt (by omega)
  omega

theorem boxPixels_singleton (img : Image) (x y : Nat) :
    boxPixels img x (x + 1) y (y + 1) = [img.px x y] := by
  simp [boxPixels, List.range_succ]

theorem avgBox_singleton (img : Image) (x y : Nat) :
    avgBox img x (x + 1) y (y + 1) = img.px x y := by
  simp [avgBox, boxPixels_singleton, avgChannel]

theorem resizeBilinear_self (img : Image) (x y : Nat)
    (hx : x < img.width) (hy : y < img.height) :
    (resizeBilinear img img.width img.height).px x y = img.px x y := by
  have hw : 0 < img.width := by omega
  have hh : 0 < img.height := by omega
  show avgBox img (boxLo x img.width img.width) (boxHi x img.width img.width)
      (boxLo y img.height img.height) (boxHi y img.height img.height) = img.px x y
  rw [boxLo_self x _ hw, boxHi_self x _ hw, boxLo_self y _ hh, boxHi_self y _ hh,
    avgBox_singleton]

theorem new_width_one (img : Image) (hW : 1 ≤ img.width) : new_width img 1 = img.width := by
  unfold new_width
  rw [Int.fdiv_one]
  omega

theorem new_height_one (img : Image) (hH : 1 ≤ img.height) : new_height img 1 = img.height := by
  unfold new_height
  rw [Int.fdiv_one]
  omega

theorem pixelated_image_one (img : Image) (hW : 1 ≤ img.width) (hH : 1 ≤ img.height)
    (x y : Nat) (hx : x < img.width) (hy : y < img.height) :
    (pixelated_image img 1).px x y = img.px x y := by
  show (small_image img 1).px
      ((2 * x + 1) * (small_image img 1).width / (2 * img.width))
      ((2 * y + 1) * (small_image img 1).height / (2 * img.height)) = img.px x y
  have h1 : (small_image img 1).width = img.width := new_width_one img hW
  have h2 : (small_image img 1).height = img.height := new_height_one img hH
  rw [h1, h2, nearest_index img.width x (by omega), nearest_index img.height y (by omega)]
  show (resizeBilinear img (new_width img 1) (new_height img 1)).px x y = img.px x y
  rw [new_width_one img hW, new_height_one img hH]
  exact resizeBilinear_self img x y hx hy

theorem channelValues_congr (A B : Image) (c : Pixel → Nat) (hw : A.width = B.width)
    (hh : A.height = B.height)
    (hpx : ∀ x y, x < B.width → y < B.height → A.px x y = B.px x y) :
    channelValues A c = channelValues B c := by
  unfold channelValues
  rw [hw, hh]
  congr 1
  apply List.map_congr_left
  intro y hy
  apply List.map_congr_left
  intro x hx
  rw [hpx x y (List.mem_range.mp hx) (List.mem_range.mp hy)]

theorem autocontrast_px_congr (A B : Image) (hw : A.width = B.width)
    (hh : A.height = B.height)
    (hpx : ∀ x y, x < B.width → y < B.height → A.px x y = B.px x y)
    (x y : Nat) (hx : x < B.width) (hy : y < B.height) :
    (autocontrast A).px x y = (autocontrast B).px x y := by
  simp only [autocontrast]
  rw [channelValues_congr A B Pixel.r hw hh hpx, channelValues_congr A B Pixel.g hw hh hpx,
    channelValues_congr A B Pixel.b hw hh hpx, hpx x y hx hy]

/-- The result of `pixelate_image` has the input's dimensions whenever the
division does not raise (any `pixel_size ≠ 0`). -/
theorem pixelate_image_size_of_ne (image : Image) (pixel_size : Int) (auto_adjust : Bool)
    (hp : pixel_size ≠ 0) :
    (pixelate_image image pixel_size auto_adjust).map (fun J => (J.width, J.height))
      = .ok (image.width, image.height) := by
  unfold pixelate_image
  rw [if_neg hp]
  cases auto_adjust <;> rfl

/-! ### Facts about the atlas packer -/

/-- On a non-empty list, `generate_spritemap` takes the `else` branch. -/
theorem generate_spritemap_eq (images : List Image) (h : images ≠ []) :
    generate_spritemap images
      = some (images.enum.foldl
          (fun spritemap p =>
            paste spritemap p.2 (paste_x images p.1 p.2) (paste_y images p.1 p.2))
          (blankCanvas (cols images * cell_width images)
            (rows images * cell_height images))) := by
  unfold generate_spritemap
  rw [if_neg]
  simp [List.isEmpty_iff, h]

theorem paste_x_lower (images : List Image) (idx : Nat) (img : Image) :
    (idx % cols images) * cell_width images ≤ paste_x images idx img :=
  Nat.le_add_right _ _

theorem paste_y_lower (images : List Image) (idx : Nat) (img : Image) :
    (idx / cols images) * cell_height images ≤ paste_y images idx img :=
  Nat.le_add_right _ _

theorem paste_x_upper (images : List Image) (idx : Nat) (img : Image)
    (h : img.width ≤ cell_width images) :
    paste_x images idx img + img.width ≤ (idx % cols images + 1) * cell_width images := by
  unfold paste_x
  rw [Nat.add_mul, Nat.one_mul]
  omega

theorem paste_y_upper (images : List Image) (idx : Nat) (img : Image)
    (h : img.height ≤ cell_height images) :
    paste_y images idx img + img.height ≤ (idx / cols images + 1) * cell_height images := by
  unfold paste_y
  rw [Nat.add_mul, Nat.one_mul]
  omega

/-- Two cells at distinct positions along one axis are separated: the end of
the earlier rectangle is at or before the start of the later cell. -/
theorem rect_sep (cw a b ox w : Nat) (hab : a < b) (hw : ox + w ≤ cw) :
    a * cw + ox + w ≤ b * cw := by
  have h1 : (a + 1) * cw ≤ b * cw := Nat.mul_le_mul_right cw (by omega)
  rw [Nat.add_mul, Nat.one_mul] at h1
  omega

/-- Distinct indices occupy distinct cells of the grid. -/
theorem cell_ne_of_index_ne (i j c : Nat) (hij : i ≠ j) :
    i % c ≠ j % c ∨ i / c ≠ j / c := by
  by_contra hcon
  push_neg at hcon
  obtain ⟨h1, h2⟩ := hcon
  have h3 := Nat.div_add_mod i c
  have h4 := Nat.div_add_mod j c
  rw [h1, h2] at h3
  omega

/-! ### The claims -/

/-- C1 counterexample: `pixelate_image` applied to a 2×2 image with
`pixel_size = -1` does not fail with any error — it returns an image (of the
input's dimensions), so the claim that every `pixel_size < 1` fails with
`InvalidConfig` is false on the code (no such validation exists; the source
has no `InvalidConfig` error at all). -/
theorem pixelate_image_no_invalid_config :
    (pixelate_image testImage2 (-1) false).map (fun J => (J.width, J.height))
      = .ok (2, 2) := rfl

/-- C1 (amended): `pixelate_image` performs no `pixel_size` validation: for
every image with width ≥ 1 and height ≥ 1 and every `pixel_size ≤ -1` it
returns an image rather than failing, and at `pixel_size = 0` it fails with
Python's uncaught `ZeroDivisionError`, not with `InvalidConfig`. -/
theorem pixelate_image_no_validation (image : Image) (pixel_size : Int)
    (auto_adjust : Bool) (hW : 1 ≤ image.width) (hH : 1 ≤ image.height)
    (hp : pixel_size ≤ -1) :
    (pixelate_image image pixel_size auto_adjust).isOk = true ∧
    pixelate_image image 0 auto_adjust = .error .zeroDivisionError := by
  constructor
  · unfold pixelate_image
    rw [if_neg (by omega : pixel_size ≠ 0)]
    rfl
  · rfl

/-- C1 (amended) witness at a concrete input: a 3×2 image, `pixel_size = -2`. -/
theorem pixelate_image_no_validation_witness :
    (pixelate_image testImage3 (-2) true).isOk = true ∧
    pixelate_image testImage3 0 true = .error .zeroDivisionError :=
  pixelate_image_no_validation testImage3 (-2) true (by decide) (by decide) (by decide)

/-- C4: for every image with width ≥ 1 and height ≥ 1 and every
`pixel_size ≥ 1`, the image returned by `pixelate_image` has exactly the
input's width and height (the final resize targets `image.size`, and the
auto-contrast step keeps dimensions). -/
theorem pixelate_image_preserves_size (image : Image) (pixel_size : Int)
    (auto_adjust : Bool) (hW : 1 ≤ image.width) (hH : 1 ≤ image.height)
    (hp : 1 ≤ pixel_size) :
    (pixelate_image image pixel_size auto_adjust).map (fun J => (J.width, J.height))
      = .ok (image.width, image.height) :=
  pixelate_image_size_of_ne image pixel_size auto_adjust (by omega)

/-- C4 witness at a concrete input: a 3×2 image, `pixel_size = 2`. -/
theorem pixelate_image_preserves_size_witness :
    (pixelate_image testImage3 2 true).map (fun J => (J.width, J.height))
      = .ok (3, 2) :=
  pixelate_image_preserves_size testImage3 2 true (by decide) (by decide) (by decide)

/-- C5: when `auto_adjust` is true, the alpha channel of the image returned by
`pixelate_image` is identical to the alpha channel before the contrast
stretch (the result of `pixelate_image` with `auto_adjust = false`): the
auto-contrast step rescales only the colour channels. -/
theorem pixelate_image_preserves_alpha (image : Image) (pixel_size : Int)
    (hp : pixel_size ≠ 0) (x y : Nat) :
    (pixelate_image image pixel_size true).map (fun J => (J.px x y).a)
      = (pixelate_image image pixel_size false).map (fun J => (J.px x y).a) := by
  unfold pixelate_image
  rw [if_neg hp, if_neg hp]
  rfl

/-- C5 witness at a concrete input: a 2×2 image, `pixel_size = 2`. -/
theorem pixelate_image_preserves_alpha_witness :
    (pixelate_image testImage2 2 true).map (fun J => (J.px 0 0).a)
      = (pixelate_image testImage2 2 false).map (fun J => (J.px 0 0).a) :=
  pixelate_image_preserves_alpha testImage2 2 (by decide) 0 0

/-- C6: for every image of width W ≥ 1 and height H ≥ 1 and every
`pixel_size ≥ 1`, the intermediate downsampled image `small_image` computed
by `pixelate_image` has dimensions `max 1 (W / pixel_size)` by
`max 1 (H / pixel_size)` (floor division). -/
theorem small_image_size (image : Image) (pixel_size : Int)
    (hW : 1 ≤ image.width) (hH : 1 ≤ image.height) (hp : 1 ≤ pixel_size) :
    (small_image image pixel_size).width = max 1 (image.width / pixel_size.toNat) ∧
    (small_image image pixel_size).height = max 1 (image.height / pixel_size.toNat) := by
  have hcast : ((pixel_size.toNat : Nat) : Int) = pixel_size :=
    Int.toNat_of_nonneg (by omega)
  constructor
  · show new_width image pixel_size = _
    unfold new_width
    have h2 : Int.fdiv image.width pixel_size
        = ((image.width / pixel_size.toNat : Nat) : Int) := by
      rw [← hcast]
      exact (Int.ofNat_fdiv _ _).symm
    rw [h2]
    omega
  · show new_height image pixel_size = _
    unfold new_height
    have h2 : Int.fdiv image.height pixel_size
        = ((image.height / pixel_size.toNat : Nat) : Int) := by
      rw [← hcast]
      exact (Int.ofNat_fdiv _ _).symm
    rw [h2]
    omega

/-- C6 witness at the spec's example: a 100×100 image with `pixel_size = 16`
gives a 6×6 intermediate image (100 // 16 = 6). -/
theorem small_image_size_witness :
    ((small_image testImage100 16).width = 6 ∧ (small_image testImage100 16).height = 6) ∧
    ((small_image testImage100 16).width = max 1 (testImage100.width / (16 : Int).toNat) ∧
     (small_image testImage100 16).height = max 1 (testImage100.height / (16 : Int).toNat)) :=
  ⟨by decide, small_image_size testImage100 16 (by decide) (by decide) (by decide)⟩

/-- C7: with `pixel_size = 1` the downsample/upsample steps are the identity:
`pixelate_image` with `auto_adjust = false` returns an image pixel-for-pixel
equal to the input, and with `auto_adjust = true` it returns exactly the
auto-contrast adjustment of the input. -/
theorem pixelate_image_identity_at_one (image : Image) (hW : 1 ≤ image.width)
    (hH : 1 ≤ image.height) (x y : Nat) (hx : x < image.width) (hy : y < image.height) :
    (pixelate_image image 1 false).map (fun J => (J.width, J.height, J.px x y))
      = .ok (image.width, image.height, image.px x y) ∧
    (pixelate_image image 1 true).map (fun J => (J.width, J.height, J.px x y))
      = .ok (image.width, image.height, (autocontrast image).px x y) := by
  have hone : (1 : Int) ≠ 0 := by decide
  have hpx : ∀ a b, a < image.width → b < image.height →
      (pixelated_image image 1).px a b = image.px a b :=
    fun a b ha hb => pixelated_image_one image hW hH a b ha hb
  constructor
  · show Except.ok ((pixelated_image image 1).width, (pixelated_image image 1).height,
        (pixelated_image image 1).px x y)
      = Except.ok (image.width, image.height, image.px x y)
    rw [hpx x y hx hy]
    rfl
  · show Except.ok ((autocontrast (pixelated_image image 1)).width,
        (autocontrast (pixelated_image image 1)).height,
        (autocontrast (pixelated_image image 1)).px x y)
      = Except.ok (image.width, image.height, (autocontrast image).px x y)
    rw [autocontrast_px_congr (pixelated_image image 1) image rfl rfl hpx x y hx hy]
    rfl

/-- C7 witness at a concrete input: a 2×2 image, pixel (1, 0). -/
theorem pixelate_image_identity_at_one_witness :
    (pixelate_image testImage2 1 false).map (fun J => (J.width, J.height, J.px 1 0))
      = .ok (testImage2.width, testImage2.height, testImage2.px 1 0) ∧
    (pixelate_image testImage2 1 true).map (fun J => (J.width, J.height, J.px 1 0))
      = .ok (testImage2.width, testImage2.height, (autocontrast testImage2).px 1 0) :=
  pixelate_image_identity_at_one testImage2 (by decide) (by decide) 1 0
    (by decide) (by decide)

/-- C10: for every image with width ≥ 1 and height ≥ 1 and every negative
`pixel_size ≤ -1`, `pixelate_image` does not fail: the floor divisions give a
non-positive value which `max 1` clamps, so the intermediate image is 1×1 and
an image with the input's dimensions is returned; only `pixel_size = 0` fails,
with an uncaught `ZeroDivisionError`. -/
theorem pixelate_image_negative_size (image : Image) (pixel_size : Int)
    (auto_adjust : Bool) (hW : 1 ≤ image.width) (hH : 1 ≤ image.height)
    (hp : pixel_size ≤ -1) :
    (pixelate_image image pixel_size auto_adjust).map (fun J => (J.width, J.height))
      = .ok (image.width, image.height) ∧
    new_width image pixel_size = 1 ∧ new_height image pixel_size = 1 ∧
    pixelate_image image 0 auto_adjust = .error .zeroDivisionError := by
  refine ⟨pixelate_image_size_of_ne image pixel_size auto_adjust (by omega), ?_, ?_, rfl⟩
  · unfold new_width
    have h1 : Int.fdiv image.width pixel_size ≤ 0 :=
      Int.fdiv_nonpos (by omega) (by omega)
    omega
  · unfold new_height
    have h1 : Int.fdiv image.height pixel_size ≤ 0 :=
      Int.fdiv_nonpos (by omega) (by omega)
    omega

/-- C10 witness at a concrete input: a 2×2 image, `pixel_size = -1`. -/
theorem pixelate_image_negative_size_witness :
    (pixelate_image testImage2 (-1) true).map (fun J => (J.width, J.height))
      = .ok (2, 2) ∧
    new_width testImage2 (-1) = 1 ∧ new_height testImage2 (-1) = 1 ∧
    pixelate_image testImage2 0 true = .error .zeroDivisionError :=
  pixelate_image_negative_size testImage2 (-1) true (by decide) (by decide) (by decide)

/-- C2: for every non-empty sequence of N images, `generate_spritemap` uses
`cell_width`/`cell_height` equal to the maximum width/height over the
sequence, `cols` equal to the ceiling of the square root of N (the least `c`
with `N ≤ c*c`), `rows = ceil(N / cols)` — the minimal `rows` with
`cols*rows ≥ N` — and produces a canvas of exactly `cols*cell_width` by
`rows*cell_height` pixels. -/
theorem generate_spritemap_layout (images : List Image) (h : images ≠ []) :
    (generate_spritemap images).map (fun c => (c.width, c.height))
      = some (cols images * cell_width images, rows images * cell_height images) ∧
    cell_width images = listMax (images.map Image.width) ∧
    cell_height images = listMax (images.map Image.height) ∧
    images.length ≤ cols images * cols images ∧
    (∀ c, images.length ≤ c * c → cols images ≤ c) ∧
    images.length ≤ cols images * rows images ∧
    (∀ r, images.length ≤ cols images * r → rows images ≤ r) := by
  have hpos : 0 < images.length := List.length_pos.mpr h
  have hcols : 0 < cols images := ceilSqrt_pos hpos
  refine ⟨?_, rfl, rfl, le_ceilSqrt_sq images.length,
    fun c hc => ceilSqrt_le_of_le_sq hc,
    le_mul_ceilDiv images.length (cols images) hcols,
    fun r hr => ceilDiv_le images.length (cols images) r hcols hr⟩
  rw [generate_spritemap_eq images h, Option.map_some']
  have h1 := spritemap_foldl_size images images.enum
    (blankCanvas (cols images * cell_width images) (rows images * cell_height images))
  rw [h1.1, h1.2]
  rfl

/-- C2 witness at the spec's example list (sizes 10×10, 8×8, 10×6, 8×10):
the canvas is exactly 20×20. -/
theorem generate_spritemap_layout_witness :
    exampleImages ≠ [] ∧
    (generate_spritemap exampleImages).map (fun c => (c.width, c.height))
      = some (20, 20) := by
  have h : exampleImages ≠ [] := by simp [exampleImages]
  refine ⟨h, ?_⟩
  rw [(generate_spritemap_layout exampleImages h).1]
  decide

/-- C3: the image at 0-based index `idx` of the input sequence is the one the
paste fold of `generate_spritemap` places (placement follows exactly the input
sequence order, via `enumerate`), and its paste position is
`x = (idx mod cols)*cell_width + (cell_width - width)/2`,
`y = (idx div cols)*cell_height + (cell_height - height)/2`. -/
theorem generate_spritemap_placement (images : List Image) (idx : Nat)
    (h : idx < images.length) :
    images.enum[idx]? = some (idx, images.get ⟨idx, h⟩) ∧
    paste_x images idx (images.get ⟨idx, h⟩)
      = (idx % cols images) * cell_width images
        + (cell_width images - (images.get ⟨idx, h⟩).width) / 2 ∧
    paste_y images idx (images.get ⟨idx, h⟩)
      = (idx / cols images) * cell_height images
        + (cell_height images - (images.get ⟨idx, h⟩).height) / 2 := by
  refine ⟨?_, rfl, rfl⟩
  rw [List.getElem?_enum images idx, List.getElem?_eq_getElem h, Option.map_some']
  rw [List.get_eq_getElem images ⟨idx, h⟩]

/-- C3 witness at the spec's example: the 8×8 image at index 1 of the
(10×10, 8×8, 10×6, 8×10) list is pasted at (x, y) = (11, 1). -/
theorem generate_spritemap_placement_witness :
    (1 < exampleImages.length ∧
      exampleImages.enum[1]? = some (1, exampleImages.get ⟨1, by decide⟩)) ∧
    paste_x exampleImages 1 (exampleImages.get ⟨1, by decide⟩) = 11 ∧
    paste_y exampleImages 1 (exampleImages.get ⟨1, by decide⟩) = 1 :=
  ⟨⟨by decide, (generate_spritemap_placement exampleImages 1 (by decide)).1⟩,
    by decide, by decide⟩

/-- C8: for the empty input sequence, `generate_spritemap` is a no-op signaled
to the caller: it returns without producing a canvas and without raising an
error. -/
theorem generate_spritemap_empty : generate_spritemap ([] : List Image) = none := rfl

/-- C9: every placed image's rectangle lies inside its own grid cell
(`[col*cell_width, (col+1)*cell_width) × [row*cell_height,
(row+1)*cell_height)`), hence inside the canvas, and the rectangles of two
distinct indices are separated along the column or the row axis, so they are
pairwise disjoint and no paste overwrites a previously placed image or falls
outside the canvas. -/
theorem generate_spritemap_no_overlap (images : List Image) (i j : Nat)
    (hi : i < images.length) (hj : j < images.length) (hij : i ≠ j) :
    (i % cols images) * cell_width images ≤ paste_x images i (images.get ⟨i, hi⟩) ∧
    paste_x images i (images.get ⟨i, hi⟩) + (images.get ⟨i, hi⟩).width
      ≤ (i % cols images + 1) * cell_width images ∧
    (i / cols images) * cell_height images ≤ paste_y images i (images.get ⟨i, hi⟩) ∧
    paste_y images i (images.get ⟨i, hi⟩) + (images.get ⟨i, hi⟩).height
      ≤ (i / cols images + 1) * cell_height images ∧
    paste_x images i (images.get ⟨i, hi⟩) + (images.get ⟨i, hi⟩).width
      ≤ cols images * cell_width images ∧
    paste_y images i (images.get ⟨i, hi⟩) + (images.get ⟨i, hi⟩).height
      ≤ rows images * cell_height images ∧
    (paste_x images i (images.get ⟨i, hi⟩) + (images.get ⟨i, hi⟩).width
        ≤ paste_x images j (images.get ⟨j, hj⟩) ∨
      paste_x images j (images.get ⟨j, hj⟩) + (images.get ⟨j, hj⟩).width
        ≤ paste_x images i (images.get ⟨i, hi⟩) ∨
      paste_y images i (images.get ⟨i, hi⟩) + (images.get ⟨i, hi⟩).height
        ≤ paste_y images j (images.get ⟨j, hj⟩) ∨
      paste_y images j (images.get ⟨j, hj⟩) + (images.get ⟨j, hj⟩).height
        ≤ paste_y images i (images.get ⟨i, hi⟩)) := by
  have hpos : 0 < images.length := by omega
  have hcols : 0 < cols images := ceilSqrt_pos hpos
  have hwi : (images.get ⟨i, hi⟩).width ≤ cell_width images :=
    width_le_cell_width images _ (List.get_mem images i hi)
  have hhi : (images.get ⟨i, hi⟩).height ≤ cell_height images :=
    height_le_cell_height images _ (List.get_mem images i hi)
  have hwj : (images.get ⟨j, hj⟩).width ≤ cell_width images :=
    width_le_cell_width images _ (List.get_mem images j hj)
  have hhj : (images.get ⟨j, hj⟩).height ≤ cell_height images :=
    height_le_cell_height images _ (List.get_mem images j hj)
  have hmodi : i % cols images < cols images := Nat.mod_lt _ hcols
  have hrowi : i / cols images < rows images := by
    have hcount : images.length ≤ cols images * rows images :=
      le_mul_ceilDiv images.length (cols images) hcols
    have hcomm : cols images * rows images = rows images * cols images :=
      Nat.mul_comm _ _
    exact (Nat.div_lt_iff_lt_mul hcols).2 (by omega)
  refine ⟨paste_x_lower images i _, paste_x_upper images i _ hwi,
    paste_y_lower images i _, paste_y_upper images i _ hhi, ?_, ?_, ?_⟩
  · exact le_trans (paste_x_upper images i _ hwi)
      (Nat.mul_le_mul_right _ (by omega))
  · exact le_trans (paste_y_upper images i _ hhi)
      (Nat.mul_le_mul_right _ (by omega))
  · rcases cell_ne_of_index_ne i j (cols images) hij with hne | hne
    · rcases Nat.lt_or_ge (i % cols images) (j % cols images) with hlt | hge
      · left
        refine le_trans ?_ (paste_x_lower images j _)
        exact rect_sep (cell_width images) (i % cols images) (j % cols images)
          ((cell_width images - (images.get ⟨i, hi⟩).width) / 2)
          (images.get ⟨i, hi⟩).width hlt (by omega)
      · right; left
        refine le_trans ?_ (paste_x_lower images i _)
        exact rect_sep (cell_width images) (j % cols images) (i % cols images)
          ((cell_width images - (images.get ⟨j, hj⟩).width) / 2)
          (images.get ⟨j, hj⟩).width (by omega) (by omega)
    · rcases Nat.lt_or_ge (i / cols images) (j / cols images) with hlt | hge
      · right; right; left
        refine le_trans ?_ (paste_y_lower images j _)
        exact rect_sep (cell_height images) (i / cols images) (j / cols images)
          ((cell_height images - (images.get ⟨i, hi⟩).height) / 2)
          (images.get ⟨i, hi⟩).height hlt (by omega)
      · right; right; right
        refine le_trans ?_ (paste_y_lower images i _)
        exact rect_sep (cell_height images) (j / cols images) (i / cols images)
          ((cell_height images - (images.get ⟨j, hj⟩).height) / 2)
          (images.get ⟨j, hj⟩).height (by omega) (by omega)

/-- C9 witness: in the example list, the rectangles of the images at indices
0 and 1 are disjoint (the first ends at or before the second begins along
the column axis). -/
theorem generate_spritemap_no_overlap_witness :
    (0 : Nat) ≠ 1 ∧
    (paste_x exampleImages 0 (exampleImages.get ⟨0, by decide⟩)
        + (exampleImages.get ⟨0, by decide⟩).width
        ≤ paste_x exampleImages 1 (exampleImages.get ⟨1, by decide⟩) ∨
      paste_x exampleImages 1 (exampleImages.get ⟨1, by decide⟩)
        + (exampleImages.get ⟨1, by decide⟩).width
        ≤ paste_x exampleImages 0 (exampleImages.get ⟨0, by decide⟩) ∨
      paste_y exampleImages 0 (exampleImages.get ⟨0, by decide⟩)
        + (exampleImages.get ⟨0, by decide⟩).height
        ≤ paste_y exampleImages 1 (exampleImages.get ⟨1, by decide⟩) ∨
      paste_y exampleImages 1 (exampleImages.get ⟨1, by decide⟩)
        + (exampleImages.get ⟨1, by decide⟩).height
        ≤ paste_y exampleImages 0 (exampleImages.get ⟨0, by decide⟩)) :=
  ⟨by decide,
    (generate_spritemap_no_overlap exampleImages 0 1 (by decide) (by decide)
      (by decide)).2.2.2.2.2.2⟩

end SpriteGen
